import Mathlib

/-!
A verification development for the file `data_structures.py` of reflexible.

The module is embedded shallowly:

* numpy arrays are modelled as total functions from indices to `ℚ`, paired
  with explicit dimension sizes where a claim mentions shapes;
* timestamps (`YYYYMMDDHHMMSS` strings produced by strftime) are modelled by
  their second counts: strptime/strftime are mutually inverse and strictly
  monotone on second-resolution datetimes, so the string list generated by
  `Header.available_dates` is faithfully represented by the list of the
  underlying seconds;
* fallible Python code is modelled in `Except PyErr`, where `PyErr`
  distinguishes the exception classes the claims talk about;
* the netCDF dataset is modelled by its ingredients: a map from variable
  names to raw arrays, dimension sizes, and scalar attributes.
-/

namespace Reflexible

/-- The Python exception classes relevant to the error-handling claims. -/
inductive PyErr where
  | typeError
  | assertionError
  | unboundLocalError
  | keyError
  | valueError
  | indexError
  deriving DecidableEq, Repr

/-- Model of a numpy sum-reduction, `((List.range n).map f).sum`, over an axis of
length `n`, the summand at index `i` being `f i`. -/
def sumTo (f : Nat → ℚ) (n : Nat) : ℚ := ((List.range n).map f).sum

/-- Decimal digits of `n` left-padded with zeros to width `w`
(Python `"%0wd" % n` for nonnegative `n`). -/
def natPad (w : Nat) (n : Nat) : String :=
  let s := Nat.repr n
  if s.length < w then String.mk (List.replicate (w - s.length) '0') ++ s else s

/-- Python `"%03d" % n` for an integer `n` (sign included in the width). -/
def pad3 (n : ℤ) : String :=
  if n < 0 then "-" ++ natPad 2 (-n).toNat else natPad 3 n.toNat

/-- The `iout`-driven variable-name selection shared by `Header.species`,
`FD.__getitem__` and `C.__getitem__`: two sequential `if` statements assign
`varname = "spec%03d_mr" % (k+1)` when `iout in (1, 3, 5)` and
`varname = "spec%03d_pptv" % (k+1)` when `iout in (2,)`; for any other
`iout` the local variable stays unassigned (`none`). -/
def selectVarname (iout : ℤ) (k : ℤ) : Option String :=
  let v0 : Option String := none
  let v1 : Option String :=
    if iout = 1 ∨ iout = 3 ∨ iout = 5 then some ("spec" ++ pad3 (k + 1) ++ "_mr") else v0
  let v2 : Option String :=
    if iout = 2 then some ("spec" ++ pad3 (k + 1) ++ "_pptv") else v1
  v2

/-- Length of Python `range(start, stop, step)` for `step ≠ 0`
(`max 0 (ceil ((stop - start) / step))`); Python raises on `step = 0`,
which no claim exercises, so that case is mapped to the empty range. -/
def pyRangeLen (start stop step : ℤ) : Nat :=
  if 0 < step then ((stop - start + step - 1) / step).toNat
  else if step < 0 then ((start - stop - step - 1) / (-step)).toNat
  else 0

/-- Python `range(start, stop, step)` as a list of integers. -/
def pyRange (start stop step : ℤ) : List ℤ :=
  (List.range (pyRangeLen start stop step)).map
    (fun (i : Nat) => start + step * (i : ℤ))

/-- Model of `Header.direction`: `"backward"` if `ldirect < 0` else `"forward"`. -/
def direction (ldirect : ℤ) : String :=
  if ldirect < 0 then "backward" else "forward"

/-- Model of `Header.available_dates` with timestamps as seconds: `bsec`/`esec` are the
seconds of the parsed `ibdate+ibtime` / `iedate+ietime` datetimes, and
`nsteps` is the size of the `time` dimension.  Backward runs list
`iedate+ietime` plus every `t` in `range(loutstep*(nsteps-1), -loutstep,
-loutstep)`; forward runs list `ibdate+ibtime` plus every `t` in
`range(0, loutstep*nsteps, loutstep)`. -/
def available_dates_sec (ldirect loutstep : ℤ) (nsteps : Nat) (bsec esec : ℤ) : List ℤ :=
  if ldirect < 0 then
    (pyRange (loutstep * ((nsteps : ℤ) - 1)) (-loutstep) (-loutstep)).map (fun t => esec + t)
  else
    (pyRange 0 (loutstep * (nsteps : ℤ)) loutstep).map (fun t => bsec + t)

/-- Model of `np.arange(start, stop, step)` in exact rational arithmetic:
`ceil ((stop - start) / step)` entries, the `i`-th being `start + i*step`. -/
def np_arange (start stop step : ℚ) : List ℚ :=
  (List.range (Int.ceil ((stop - start) / step)).toNat).map
    (fun (i : Nat) => start + (i : ℚ) * step)

/-- Model of `Header.longitude`: `np.arange(outlon0, outlon0 + dxout*numxgrid, dxout)`. -/
def longitude (outlon0 dxout : ℚ) (numxgrid : Nat) : List ℚ :=
  np_arange outlon0 (outlon0 + dxout * (numxgrid : ℚ)) dxout

/-- Model of `Header.latitude`: `np.arange(outlat0, outlat0 + dyout*numygrid, dyout)`. -/
def latitude (outlat0 dyout : ℚ) (numygrid : Nat) : List ℚ :=
  np_arange outlat0 (outlat0 + dyout * (numygrid : ℚ)) dyout

/-- Python atoms that can occur inside a lookup key. -/
inductive PyAtom where
  | int : ℤ → PyAtom
  | bool : Bool → PyAtom
  | str : String → PyAtom
  deriving DecidableEq, Repr

/-- A Python value passed as a subscript to `C.__getitem__`: a tuple, a bare
atom, or a list (the shapes the key asserts discriminate). -/
inductive PyKey where
  | tup : List PyAtom → PyKey
  | atom : PyAtom → PyKey
  | list : List PyAtom → PyKey
  deriving DecidableEq, Repr

/-- The key checks opening `C.__getitem__`:
`assert type(item) is tuple and len(item) == 2` followed by
`assert type(nspec) is int and type(pointspec) is int`; a failing `assert`
raises `AssertionError`. -/
def C_check (item : PyKey) : Except PyErr (ℤ × ℤ) :=
  match item with
  | PyKey.tup (PyAtom.int a :: PyAtom.int b :: List.nil) => Except.ok (a, b)
  | _ => Except.error PyErr.assertionError

/-- A minimal model of the Python values stored in attributes that get
called: a plain list or a callable.  Calling a plain list object raises
`TypeError`. -/
inductive PyV where
  | vlist : List (Nat × Nat) → PyV
  | vcallable : (Unit → List (Nat × Nat)) → PyV

/-- Python call semantics for `PyV`: lists are not callable. -/
def PyV.call : PyV → Except PyErr PyV
  | PyV.vcallable f => Except.ok (PyV.vlist (f ()))
  | PyV.vlist _ => Except.error PyErr.typeError

/-- Model of `C._keys`: `[(s, k) for s, k in itertools.product(range(nspec),
range(pointspec))]`, the species-major cartesian product. -/
def C_keys_list (nspec pointspec : Nat) : List (Nat × Nat) :=
  (List.range nspec).flatMap (fun s => (List.range pointspec).map (fun k => (s, k)))

/-- The `C._keys` attribute: a plain Python list. -/
def C_keys_attr (nspec pointspec : Nat) : PyV :=
  PyV.vlist (C_keys_list nspec pointspec)

/-- The `C.keys` property: `return self._keys()` — it calls the stored list. -/
def C_keys_prop (nspec pointspec : Nat) : Except PyErr PyV :=
  (C_keys_attr nspec pointspec).call

/-- A raw netCDF species variable (`spec*_mr` / `spec*_pptv`): a rank-6 array
in native axis order `(nageclass, pointspec, time, height, latitude,
longitude)`, as a total function on indices together with the axis lengths.
In a well-formed file the axis lengths coincide with the equally named file
dimensions (`numxgrid` equals the length of the longitude dimension, ...). -/
structure Raw6 where
  na : Nat
  np : Nat
  nt : Nat
  nz : Nat
  ny : Nat
  nx : Nat
  val : Nat → Nat → Nat → Nat → Nat → Nat → ℚ

/-- Model of `specvar = nc.variables[varname][:].T`: the rank-6 transpose reverses all
axes, giving canonical order `(x, y, z, time, pointspec, ageclass)`. -/
def specvarT (r : Raw6) : Nat → Nat → Nat → Nat → Nat → Nat → ℚ :=
  fun x y z t p a => r.val a p t z y x

/-- A rank-5 array (an FD grid `(x, y, z, pointspec, ageclass)`). -/
structure Arr5 where
  d1 : Nat
  d2 : Nat
  d3 : Nat
  d4 : Nat
  d5 : Nat
  val : Nat → Nat → Nat → Nat → Nat → ℚ

/-- numpy `.shape` of a rank-5 array. -/
def Arr5.shape (g : Arr5) : List Nat := [g.d1, g.d2, g.d3, g.d4, g.d5]

/-- All entries of a rank-5 array, flattened in row-major order. -/
def Arr5.elems (g : Arr5) : List ℚ :=
  (List.range g.d1).flatMap (fun i1 =>
    (List.range g.d2).flatMap (fun i2 =>
      (List.range g.d3).flatMap (fun i3 =>
        (List.range g.d4).flatMap (fun i4 =>
          (List.range g.d5).map (fun i5 => g.val i1 i2 i3 i4 i5)))))

/-- numpy `.max()` (defined as `0` on an empty array, where numpy raises;
no claim exercises that case). -/
def Arr5.maxVal (g : Arr5) : ℚ :=
  match g.elems with
  | [] => 0
  | q :: rest => rest.foldl max q

/-- numpy `.min()` (defined as `0` on an empty array). -/
def Arr5.minVal (g : Arr5) : ℚ :=
  match g.elems with
  | [] => 0
  | q :: rest => rest.foldl min q

/-- A rank-3 array (a backward C grid `(x, y, z)`). -/
structure Arr3 where
  d1 : Nat
  d2 : Nat
  d3 : Nat
  val : Nat → Nat → Nat → ℚ

/-- numpy `.shape` of a rank-3 array. -/
def Arr3.shape (g : Arr3) : List Nat := [g.d1, g.d2, g.d3]

/-- All entries of a rank-3 array, flattened in row-major order. -/
def Arr3.elems (g : Arr3) : List ℚ :=
  (List.range g.d1).flatMap (fun i1 =>
    (List.range g.d2).flatMap (fun i2 =>
      (List.range g.d3).map (fun i3 => g.val i1 i2 i3)))

/-- numpy `.max()` (defined as `0` on an empty array). -/
def Arr3.maxVal (g : Arr3) : ℚ :=
  match g.elems with
  | [] => 0
  | q :: rest => rest.foldl max q

/-- numpy `.min()` (defined as `0` on an empty array). -/
def Arr3.minVal (g : Arr3) : ℚ :=
  match g.elems with
  | [] => 0
  | q :: rest => rest.foldl min q

/-- Python list indexing `l[i]` with an `int` index: negative indices wrap
once; an index still out of range raises `IndexError`. -/
def pyIndex {α : Type} (l : List α) (i : ℤ) : Except PyErr α :=
  let j : ℤ := if i < 0 then i + l.length else i
  if h : 0 ≤ j ∧ j.toNat < l.length then Except.ok (l.get ⟨j.toNat, h.2⟩)
  else Except.error PyErr.indexError

/-- numpy integer indexing into an axis of length `n`: negative indices wrap
once (total-function arrays make a still-out-of-range index harmless). -/
def npIdx (n : Nat) (i : ℤ) : Nat :=
  (if i < 0 then i + n else i).toNat

/-- The string sentinel (the character k) stored in `FDC.rel_i` by backward FD lookups, or a
plain integer release index. -/
inductive RelIdx where
  | idx : ℤ → RelIdx
  | allRel : RelIdx
  deriving DecidableEq, Repr

/-- The slots of an `FDC` holding a rank-5 FD grid.  `grid`, `shape`,
`maxv`, `minv` are filled together by the `grid` setter; `slabs` is `none`
until `C.__getitem__` attaches it. -/
structure FDC5 where
  grid : Arr5
  shape : List Nat
  maxv : ℚ
  minv : ℚ
  itime : ℤ
  timestamp : ℤ
  spec_i : ℤ
  rel_i : RelIdx
  slabs : Option (Nat → Option (Nat → Nat → Nat → Nat → ℚ))

/-- The `FDC.grid` setter: assigning `grid` also records `value.shape`,
`value.max()` and `value.min()`. -/
def FDC5.ofGrid (g : Arr5) (it ts si : ℤ) (ri : RelIdx) : FDC5 :=
  { grid := g, shape := g.shape, maxv := g.maxVal, minv := g.minVal,
    itime := it, timestamp := ts, spec_i := si, rel_i := ri, slabs := none }

/-- Model of `FD.__getitem__((nspec, date))`: resolve `idate =
available_dates.index(date)` (a missing date raises `ValueError`), pick the
variable name from `iout` (an unhandled `iout` leaves `varname` unassigned,
so reading it raises `UnboundLocalError`), then build the FDC whose grid is
`nc.variables[varname][:, :, idate, :, :, :].T` — the date-resolved slice
transposed to `(x, y, z, pointspec, ageclass)` order.  `timeVar` models the
`time` netCDF variable; in the seconds model the parsed timestamp of
`available_dates[idate]` is `date` itself. -/
def FD_getitem (iout : ℤ) (dates : List ℤ) (vars : String → Raw6)
    (timeVar : Nat → ℤ) (direc : String) (nspec : ℤ) (date : ℤ) :
    Except PyErr FDC5 :=
  if date ∈ dates then
    match selectVarname iout nspec with
    | none => Except.error PyErr.unboundLocalError
    | some vn =>
      let r := vars vn
      let idate := List.indexOf date dates
      let g : Arr5 :=
        ⟨r.nx, r.ny, r.nz, r.np, r.na,
         fun x y z p a => r.val a p idate z y x⟩
      Except.ok (FDC5.ofGrid g (timeVar idate) date nspec
        (if direc = "forward" then RelIdx.idx 0 else RelIdx.allRel))
  else Except.error PyErr.valueError

/-- The backward-direction accumulation loop of `C.__getitem__`: starting
from `np.zeros(...)`, for every `date` in `available_dates` add
`specvar[:, :, :, idate, pointspec, :].sum(axis=-1)` where
`idate = available_dates.index(date)` and `sv` is the transposed species
variable, `na` its trailing (age-class) axis length and `p` the release
point. -/
def C_backward_grid (dates : List ℤ) (sv : Nat → Nat → Nat → Nat → Nat → Nat → ℚ)
    (na : Nat) (p : Nat) : Nat → Nat → Nat → ℚ :=
  dates.foldl
    (fun acc date => fun x y z =>
      acc x y z + sumTo (fun a => sv x y z (List.indexOf date dates) p a) na)
    (fun _ _ _ => 0)

/-- The vectorized alternative kept in the dead `else` branch of the source:
`specvar[:, :, :, :, pointspec, :].sum(axis=(-2, -1))`, a sum over the whole
time axis (length `nt`) and the age-class axis (length `na`). -/
def C_backward_grid_vec (sv : Nat → Nat → Nat → Nat → Nat → Nat → ℚ)
    (nt na : Nat) (p : Nat) : Nat → Nat → Nat → ℚ :=
  fun x y z => sumTo (fun t => sumTo (fun a => sv x y z t p a) na) nt

/-- Model of `get_slabs(Heightnn, grid)` for a rank-3 grid, with the hard-coded local
flag `normAreaHeight` kept as the parameter `norm`.  The returned dict maps
`i+1`, for `i in range(grid.shape[2])`, to the transpose of
`grid[:, :, i] / Heightnn[:, :, i]` (or of the raw level when `norm` is
off), and `0` to the transpose of `np.sum(grid, axis=2)`; every other key is
absent.  A rank-2 transpose swaps the two indices. -/
def get_slabs_core (norm : Bool) (H : Nat → Nat → Nat → ℚ) (G : Arr3) :
    Nat → Option (Nat → Nat → ℚ) :=
  fun key =>
    if key = 0 then some (fun a b => sumTo (fun i => G.val b a i) G.d3)
    else if key ≤ G.d3 then
      some (fun a b =>
        if norm then G.val b a (key - 1) / H b a (key - 1)
        else G.val b a (key - 1))
    else none

/-- Model of `get_slabs` as in the source, where `normAreaHeight = True`. -/
def get_slabs (H : Nat → Nat → Nat → ℚ) (G : Arr3) :
    Nat → Option (Nat → Nat → ℚ) :=
  get_slabs_core true H G

/-- The same `get_slabs` source applied to a rank-5 forward grid: level `i`
is `grid[:, :, i] / Heightnn[:, :, i]` with the height broadcast across the
trailing `(pointspec, ageclass)` axes, and `.T` reverses all four remaining
axes (broadcast shape errors are outside the total-function model). -/
def get_slabs5_core (norm : Bool) (H : Nat → Nat → Nat → ℚ) (G : Arr5) :
    Nat → Option (Nat → Nat → Nat → Nat → ℚ) :=
  fun key =>
    if key = 0 then some (fun i j k l => sumTo (fun z => G.val l k z j i) G.d3)
    else if key ≤ G.d3 then
      some (fun i j k l =>
        if norm then G.val l k (key - 1) j i / H l k (key - 1)
        else G.val l k (key - 1) j i)
    else none

/-- Model of `get_slabs` on a rank-5 grid with `normAreaHeight = True`. -/
def get_slabs5 (H : Nat → Nat → Nat → ℚ) (G : Arr5) :
    Nat → Option (Nat → Nat → Nat → Nat → ℚ) :=
  get_slabs5_core true H G

/-- The slots of the `FDC` built by the backward branch of
`C.__getitem__`. -/
structure CResult where
  grid : Arr3
  shape : List Nat
  maxv : ℚ
  minv : ℚ
  timestamp : ℤ
  speciesName : String
  gridfile : String
  rel_i : ℤ
  spec_i : ℤ
  slabs : Option (Nat → Option (Nat → Nat → ℚ))

/-- The `FDC.grid` setter for the backward branch, which also tags
the string multiple into `gridfile`. -/
def CResult.ofGrid (g : Arr3) (ts : ℤ) (sp : String) (ri si : ℤ)
    (sl : Option (Nat → Option (Nat → Nat → ℚ))) : CResult :=
  { grid := g, shape := g.shape, maxv := g.maxVal, minv := g.minVal,
    timestamp := ts, speciesName := sp, gridfile := "multiple",
    rel_i := ri, spec_i := si, slabs := sl }

/-- The backward branch of `C.__getitem__`: key asserts, then
`timestamp = releasetimes[pointspec]`, `species = species[nspec]`, variable
name selection by `iout`, the accumulation loop into a zero grid of shape
`(numxgrid, numygrid, numzgrid)` (the `nx ny nz` dimension sizes), and
finally `slabs = get_slabs(Heightnn, c.grid)`. -/
def C_getitem_bw (iout : ℤ) (dates : List ℤ) (vars : String → Raw6)
    (nx ny nz : Nat) (releasetimes : List ℤ) (speciesL : List String)
    (Hn : Nat → Nat → Nat → ℚ) (item : PyKey) : Except PyErr CResult :=
  Except.bind (C_check item) (fun sp =>
  Except.bind (pyIndex releasetimes sp.2) (fun ts =>
  Except.bind (pyIndex speciesL sp.1) (fun sname =>
  match selectVarname iout sp.1 with
  | none => Except.error PyErr.unboundLocalError
  | some vn =>
    let r := vars vn
    let g : Arr3 :=
      ⟨nx, ny, nz, C_backward_grid dates (specvarT r) r.na (npIdx r.np sp.2)⟩
    Except.ok (CResult.ofGrid g ts sname sp.2 sp.1 (some (get_slabs Hn g))))))

/-- The forward branch of `C.__getitem__`: key asserts, then
`d = FD.grid_dates[pointspec]` (where `FD.grid_dates` is
`available_dates`), `c = FD[(nspec, d)]`, and
`c.slabs = get_slabs(Heightnn, c.grid)`. -/
def C_getitem_fw (iout : ℤ) (dates : List ℤ) (vars : String → Raw6)
    (timeVar : Nat → ℤ) (direc : String) (Hn : Nat → Nat → Nat → ℚ)
    (item : PyKey) : Except PyErr FDC5 :=
  Except.bind (C_check item) (fun sp =>
  Except.bind (pyIndex dates sp.2) (fun d =>
  Except.bind (FD_getitem iout dates vars timeVar direc sp.1 d) (fun fdc =>
  Except.ok { fdc with slabs := some (get_slabs5 Hn fdc.grid) })))

/-- The loop body of `Header.species` over a list of species indices:
select the variable name for each index (an unhandled `iout` leaves it
unassigned, so reading it raises `UnboundLocalError`) and collect the
per-variable `long_name` attributes. -/
def species_names (iout : ℤ) (idxs : List Nat) (longName : String → String) :
    Except PyErr (List String) :=
  match idxs with
  | [] => Except.ok []
  | i :: rest =>
    match selectVarname iout (Int.ofNat i) with
    | none => Except.error PyErr.unboundLocalError
    | some vn =>
      match species_names iout rest longName with
      | Except.ok l => Except.ok (longName vn :: l)
      | Except.error e => Except.error e

/-- Model of `Header.species`: the loop `for i in range(self.nspec)`. -/
def species_model (iout : ℤ) (nspec : Nat) (longName : String → String) :
    Except PyErr (List String) :=
  species_names iout (List.range nspec) longName

/-- Model of `Header.output_unit`: the same two sequential `if` statements with the
literal names `spec001_mr` / `spec001_pptv`, then the `units`
attribute. -/
def output_unit_model (iout : ℤ) (units : String → String) :
    Except PyErr String :=
  let v0 : Option String := none
  let v1 : Option String :=
    if iout = 1 ∨ iout = 3 ∨ iout = 5 then some ("spec001_mr") else v0
  let v2 : Option String := if iout = 2 then some ("spec001_pptv") else v1
  match v2 with
  | none => Except.error PyErr.unboundLocalError
  | some vn => Except.ok (units vn)

/-! ## Helper lemmas -/

/-- Every key other than a 2-tuple of plain integers fails the opening
asserts of `C.__getitem__` with `AssertionError`. -/
theorem C_check_malformed (item : PyKey)
    (h : ∀ a b : ℤ, item ≠ PyKey.tup [PyAtom.int a, PyAtom.int b]) :
    C_check item = Except.error PyErr.assertionError := by
  match item with
  | PyKey.atom a => rfl
  | PyKey.list l => rfl
  | PyKey.tup [] => rfl
  | PyKey.tup [x] => cases x <;> rfl
  | PyKey.tup (x :: y :: z :: rest) => cases x <;> cases y <;> rfl
  | PyKey.tup [x, y] =>
    cases x <;> cases y <;> try rfl
    exact absurd rfl (h _ _)

/-- A nonnegative in-range Python index reads the list entry directly. -/
theorem pyIndex_ok {α : Type} (l : List α) (i : ℤ) (h0 : 0 ≤ i)
    (h : i.toNat < l.length) :
    pyIndex l i = Except.ok (l.get ⟨i.toNat, h⟩) := by
  have hneg : ¬ i < 0 := by omega
  simp only [pyIndex, hneg, if_false, dif_pos (And.intro h0 h)]

/-! ## C7 -/

/-- C7: reading the `C.keys` property does not yield the key sequence: the
property body `self._keys()` calls the stored list, which raises
`TypeError`, even though the stored `_keys` list is exactly the
species-major cartesian product `range(nspec) × range(pointspec)`. -/
theorem C7_keys_property_raises :
    C_keys_prop 2 3 = Except.error PyErr.typeError
    ∧ C_keys_list 2 3 = [(0, 0), (0, 1), (0, 2), (1, 0), (1, 1), (1, 2)] :=
  ⟨rfl, rfl⟩

/-! ## C8 -/

/-- C8 counterexample: a malformed key (here, the bare integer `0`) makes
`C.__getitem__` raise `AssertionError`, which is not a `TypeError`. -/
theorem C8_assertion_not_type_error :
    C_getitem_bw 1 [] (fun _ => ⟨0, 0, 0, 0, 0, 0, fun _ _ _ _ _ _ => 0⟩) 1 1 1
        [] [] (fun _ _ _ => 0) (PyKey.atom (PyAtom.int 0))
      = Except.error PyErr.assertionError
    ∧ PyErr.assertionError ≠ PyErr.typeError :=
  ⟨rfl, by decide⟩

/-- C8 (amended): for every lookup on the C accessor whose key is not a
2-element tuple of plain integers, `C.__getitem__` rejects the key by
raising an `AssertionError` (a failed `assert`, not a `TypeError`) before
any grid is computed — both the backward and the forward branch are cut off
at the shared asserts. -/
theorem C8_malformed_key_rejected (iout : ℤ) (dates : List ℤ)
    (vars : String → Raw6) (nx ny nz : Nat) (rts : List ℤ) (sl : List String)
    (Hn : Nat → Nat → Nat → ℚ) (timeVar : Nat → ℤ) (direc : String)
    (item : PyKey)
    (h : ∀ a b : ℤ, item ≠ PyKey.tup [PyAtom.int a, PyAtom.int b]) :
    C_getitem_bw iout dates vars nx ny nz rts sl Hn item
        = Except.error PyErr.assertionError
    ∧ C_getitem_fw iout dates vars timeVar direc Hn item
        = Except.error PyErr.assertionError := by
  have hc := C_check_malformed item h
  constructor
  · unfold C_getitem_bw
    rw [hc]
    rfl
  · unfold C_getitem_fw
    rw [hc]
    rfl

/-- C8 witness: the amended statement applies to the bare-integer key. -/
theorem C8_malformed_key_rejected_witness :
    C_getitem_bw 1 [] (fun _ => ⟨0, 0, 0, 0, 0, 0, fun _ _ _ _ _ _ => 0⟩) 1 1 1
        [] [] (fun _ _ _ => 0) (PyKey.atom (PyAtom.bool true))
      = Except.error PyErr.assertionError
    ∧ C_getitem_fw 1 [] (fun _ => ⟨0, 0, 0, 0, 0, 0, fun _ _ _ _ _ _ => 0⟩)
        (fun _ => 0) ("forward") (fun _ _ _ => 0) (PyKey.atom (PyAtom.bool true))
      = Except.error PyErr.assertionError :=
  C8_malformed_key_rejected 1 [] (fun _ => ⟨0, 0, 0, 0, 0, 0, fun _ _ _ _ _ _ => 0⟩)
    1 1 1 [] [] (fun _ _ _ => 0) (fun _ => 0) ("forward")
    (PyKey.atom (PyAtom.bool true)) (fun a b hab => PyKey.noConfusion hab)

/-! ## C2 -/

/-- C2: for every height field `H` and rank-3 grid `G` with `Z = G.d3`
vertical levels, `get_slabs` returns a mapping defined exactly on the keys
`0..Z`; key `0` is the transpose of the raw grid summed over the height
axis, independently of the normalization flag; and for `1 ≤ i ≤ Z` key `i`
is the transpose of `G[:, :, i-1] / H[:, :, i-1]` when normalization is on
(the source hard-codes it on) and of `G[:, :, i-1]` otherwise. -/
theorem C2_get_slabs_spec (norm : Bool) (H : Nat → Nat → Nat → ℚ) (G : Arr3) :
    (∀ k, (get_slabs_core norm H G k).isSome ↔ k ≤ G.d3)
    ∧ get_slabs_core norm H G 0
        = some (fun a b => sumTo (fun i => G.val b a i) G.d3)
    ∧ (∀ i, 1 ≤ i → i ≤ G.d3 →
        (norm = true →
          get_slabs_core norm H G i
            = some (fun a b => G.val b a (i - 1) / H b a (i - 1)))
        ∧ (norm = false →
          get_slabs_core norm H G i = some (fun a b => G.val b a (i - 1))))
    ∧ get_slabs H G = get_slabs_core true H G := by
  refine ⟨?_, ?_, ?_, rfl⟩
  · intro k
    by_cases hk : k = 0
    · subst hk; simp [get_slabs_core]
    · by_cases hk2 : k ≤ G.d3 <;> simp [get_slabs_core, hk, hk2]
  · simp [get_slabs_core]
  · intro i h1 h2
    have hi0 : ¬ i = 0 := by omega
    constructor
    · intro hn; subst hn; simp [get_slabs_core, hi0, h2]
    · intro hn; subst hn; simp [get_slabs_core, hi0, h2]

/-- C2 witness: the level-slab clause evaluated at a concrete grid. -/
theorem C2_get_slabs_spec_witness :
    get_slabs_core true (fun _ _ _ => 2) (Arr3.mk 1 1 2 (fun _ _ _ => 6)) 1
      = some (fun a b =>
          (Arr3.mk 1 1 2 (fun _ _ _ => (6 : ℚ))).val b a (1 - 1)
            / (fun _ _ _ => (2 : ℚ)) b a (1 - 1)) :=
  ((C2_get_slabs_spec true (fun _ _ _ => 2) (Arr3.mk 1 1 2 (fun _ _ _ => 6))).2.2.1
    1 (by decide) (by decide)).1 rfl

/-! ## C6 -/

/-- In exact arithmetic, `np.arange(start, start + step*n, step)` has exactly
`n` entries, the `i`-th being `start + i*step`. -/
theorem np_arange_count (start step : ℚ) (n : Nat) (hs : step ≠ 0) :
    (np_arange start (start + step * (n : ℚ)) step).length = n
    ∧ ∀ i, i < n → (np_arange start (start + step * (n : ℚ)) step).get? i
        = some (start + (i : ℚ) * step) := by
  have hq : (start + step * (n : ℚ) - start) / step = ((n : ℤ) : ℚ) := by
    rw [add_sub_cancel_left, mul_div_cancel_left₀ (n : ℚ) hs]
    norm_num
  have hcount : (Int.ceil ((start + step * (n : ℚ) - start) / step)).toNat = n := by
    rw [hq, Int.ceil_intCast]
    simp
  constructor
  · rw [np_arange, List.length_map, List.length_range, hcount]
  · intro i hi
    rw [np_arange, hcount, List.get?_map, List.get?_range hi]
    rfl

/-- C6: the longitude array has exactly `numxgrid` entries and the latitude
array exactly `numygrid` entries, forming the arithmetic sequences
`outlon0 + i*dxout` and `outlat0 + i*dyout`: excluding the endpoint of the
half-open `np.arange` interval yields neither a truncated nor an extended
grid axis. -/
theorem C6_longitude_latitude (outlon0 dxout outlat0 dyout : ℚ)
    (numxgrid numygrid : Nat) (hdx : dxout ≠ 0) (hdy : dyout ≠ 0) :
    (longitude outlon0 dxout numxgrid).length = numxgrid
    ∧ (∀ i, i < numxgrid →
        (longitude outlon0 dxout numxgrid).get? i
          = some (outlon0 + (i : ℚ) * dxout))
    ∧ (latitude outlat0 dyout numygrid).length = numygrid
    ∧ (∀ i, i < numygrid →
        (latitude outlat0 dyout numygrid).get? i
          = some (outlat0 + (i : ℚ) * dyout)) := by
  refine ⟨(np_arange_count outlon0 dxout numxgrid hdx).1,
    (np_arange_count outlon0 dxout numxgrid hdx).2,
    (np_arange_count outlat0 dyout numygrid hdy).1,
    (np_arange_count outlat0 dyout numygrid hdy).2⟩

/-- C6 witness: a concrete 3-by-2 output grid. -/
theorem C6_longitude_latitude_witness :
    (longitude (-10) 2 3).length = 3
    ∧ (longitude (-10) 2 3).get? 1 = some (-10 + (1 : ℚ) * 2)
    ∧ (latitude 40 (1/2) 2).get? 1 = some (40 + (1 : ℚ) * (1/2)) :=
  ⟨(C6_longitude_latitude (-10) 2 40 (1/2) 3 2 (by norm_num) (by norm_num)).1,
   (C6_longitude_latitude (-10) 2 40 (1/2) 3 2 (by norm_num) (by norm_num)).2.1
     1 (by decide),
   (C6_longitude_latitude (-10) 2 40 (1/2) 3 2 (by norm_num) (by norm_num)).2.2.2
     1 (by decide)⟩

/-! ## C5 -/

/-- The ceiling-division count behind every branch of `pyRangeLen`. -/
theorem ediv_mul_succ_pred (M : ℤ) (n : Nat) (hM : 0 < M) :
    ((M * ((n : ℤ) + 1) - 1) / M).toNat = n := by
  have h1 : M * ((n : ℤ) + 1) - 1 = (M - 1) + (n : ℤ) * M := by ring
  rw [h1, Int.add_mul_ediv_right _ _ (by omega : M ≠ 0),
    Int.ediv_eq_zero_of_lt (by omega) (by omega)]
  simp

/-- The backward range `range(loutstep*(nsteps-1), -loutstep, -loutstep)`
has `nsteps` entries for either sign of a nonzero `loutstep`. -/
theorem pyRangeLen_backward (L : ℤ) (n : Nat) (hL : L ≠ 0) :
    pyRangeLen (L * ((n : ℤ) - 1)) (-L) (-L) = n := by
  rcases lt_or_gt_of_ne hL with hneg | hpos
  · have hstep : (0 : ℤ) < -L := by omega
    have harg : -L - L * ((n : ℤ) - 1) + -L - 1 = (-L) * ((n : ℤ) + 1) - 1 := by
      ring
    rw [pyRangeLen, if_pos hstep, harg]
    exact ediv_mul_succ_pred (-L) n hstep
  · have hstep1 : ¬ (0 : ℤ) < -L := by omega
    have hstep2 : -L < 0 := by omega
    have harg : L * ((n : ℤ) - 1) - -L - -L - 1 = L * ((n : ℤ) + 1) - 1 := by
      ring
    have hdiv : -(-L) = L := by ring
    rw [pyRangeLen, if_neg hstep1, if_pos hstep2, harg, hdiv]
    exact ediv_mul_succ_pred L n hpos

/-- The forward range `range(0, loutstep*nsteps, loutstep)` has `nsteps`
entries for either sign of a nonzero `loutstep`. -/
theorem pyRangeLen_forward (L : ℤ) (n : Nat) (hL : L ≠ 0) :
    pyRangeLen 0 (L * (n : ℤ)) L = n := by
  rcases lt_or_gt_of_ne hL with hneg | hpos
  · have hstep1 : ¬ (0 : ℤ) < L := by omega
    have harg : (0 : ℤ) - L * (n : ℤ) - L - 1 = (-L) * ((n : ℤ) + 1) - 1 := by
      ring
    rw [pyRangeLen, if_neg hstep1, if_pos hneg, harg]
    exact ediv_mul_succ_pred (-L) n (by omega)
  · have harg : L * (n : ℤ) - 0 + L - 1 = L * ((n : ℤ) + 1) - 1 := by ring
    rw [pyRangeLen, if_pos hpos, harg]
    exact ediv_mul_succ_pred L n hpos

/-- Entry `i` of a Python range. -/
theorem pyRange_get? (start stop step : ℤ) (i : Nat)
    (hi : i < pyRangeLen start stop step) :
    (pyRange start stop step).get? i = some (start + step * (i : ℤ)) := by
  rw [pyRange, List.get?_map, List.get?_range hi]
  rfl

/-- C5 counterexample: with the backward-run attributes `ldirect = -1`,
`loutstep = -3600`, 3 time steps and end date at second `0`, the generated
list is `[-7200, -3600, 0]`: its first entry is the end date minus
`(nsteps-1)*|loutstep|` seconds, not the end date minus
`(nsteps-1)*loutstep = +7200` of the claim; and with a positive
`loutstep = 3600` the backward list `[7200, 3600, 0]` is decreasing, not
monotonically increasing. -/
theorem C5_first_entry_cex :
    available_dates_sec (-1) (-3600) 3 0 0 = [-7200, -3600, 0]
    ∧ ((-7200 : ℤ) ≠ 0 - ((3 : ℤ) - 1) * (-3600))
    ∧ available_dates_sec (-1) 3600 3 0 0 = [7200, 3600, 0]
    ∧ ¬ ((7200 : ℤ) < 3600) := by
  refine ⟨by decide, by decide, by decide, by decide⟩

/-- The generated date list always has `nsteps` entries (for `loutstep ≠ 0`). -/
theorem available_dates_sec_length (ldirect loutstep : ℤ) (nsteps : Nat)
    (bsec esec : ℤ) (hL : loutstep ≠ 0) :
    (available_dates_sec ldirect loutstep nsteps bsec esec).length = nsteps := by
  by_cases hd : ldirect < 0
  · rw [available_dates_sec, if_pos hd, List.length_map, pyRange, List.length_map,
      List.length_range, pyRangeLen_backward loutstep nsteps hL]
  · rw [available_dates_sec, if_neg hd, List.length_map, pyRange, List.length_map,
      List.length_range, pyRangeLen_forward loutstep nsteps hL]

/-- Backward-run entry formula: entry `i` is
`esec + loutstep * (nsteps - 1 - i)`. -/
theorem available_dates_sec_backward_get? (ldirect loutstep : ℤ) (nsteps : Nat)
    (bsec esec : ℤ) (hL : loutstep ≠ 0) (hd : ldirect < 0) (i : Nat)
    (hi : i < nsteps) :
    (available_dates_sec ldirect loutstep nsteps bsec esec).get? i
      = some (esec + loutstep * ((nsteps : ℤ) - 1 - (i : ℤ))) := by
  have hi2 : i < pyRangeLen (loutstep * ((nsteps : ℤ) - 1)) (-loutstep) (-loutstep) := by
    rw [pyRangeLen_backward loutstep nsteps hL]; exact hi
  simp only [available_dates_sec, if_pos hd]
  rw [List.get?_map, pyRange_get? _ _ _ i hi2]
  have harith : esec + (loutstep * ((nsteps : ℤ) - 1) + -loutstep * (i : ℤ))
      = esec + loutstep * ((nsteps : ℤ) - 1 - (i : ℤ)) := by ring
  simp only [Option.map_some']
  rw [harith]

/-- Forward-run entry formula: entry `i` is `bsec + loutstep * i`. -/
theorem available_dates_sec_forward_get? (ldirect loutstep : ℤ) (nsteps : Nat)
    (bsec esec : ℤ) (hL : loutstep ≠ 0) (hd : ¬ ldirect < 0) (i : Nat)
    (hi : i < nsteps) :
    (available_dates_sec ldirect loutstep nsteps bsec esec).get? i
      = some (bsec + loutstep * (i : ℤ)) := by
  have hi2 : i < pyRangeLen 0 (loutstep * (nsteps : ℤ)) loutstep := by
    rw [pyRangeLen_forward loutstep nsteps hL]; exact hi
  simp only [available_dates_sec, if_neg hd]
  rw [List.get?_map, pyRange_get? _ _ _ i hi2]
  have harith : bsec + ((0 : ℤ) + loutstep * (i : ℤ)) = bsec + loutstep * (i : ℤ) := by
    ring
  simp only [Option.map_some']
  rw [harith]

/-- C5 (amended): for nonzero `loutstep`, `available_dates` has length equal
to the time dimension size; for backward direction entry `i` is the end
date `iedate+ietime` plus `(nsteps-1-i)*loutstep` seconds — so the list is
anchored so that its last entry is the end date, consecutive entries step
by `-loutstep` seconds, and the list is monotonically increasing precisely
when `loutstep` is negative (the backward-run convention); for forward
direction entry `i` is the base date `ibdate+ibtime` plus `i*loutstep`
seconds. -/
theorem C5_available_dates (ldirect loutstep : ℤ) (nsteps : Nat)
    (bsec esec : ℤ) (hL : loutstep ≠ 0) :
    (available_dates_sec ldirect loutstep nsteps bsec esec).length = nsteps
    ∧ (ldirect < 0 → ∀ i, i < nsteps →
        (available_dates_sec ldirect loutstep nsteps bsec esec).get? i
          = some (esec + loutstep * ((nsteps : ℤ) - 1 - (i : ℤ))))
    ∧ (0 ≤ ldirect → ∀ i, i < nsteps →
        (available_dates_sec ldirect loutstep nsteps bsec esec).get? i
          = some (bsec + loutstep * (i : ℤ)))
    ∧ (ldirect < 0 → loutstep < 0 →
        List.Pairwise (fun a b => a < b)
          (available_dates_sec ldirect loutstep nsteps bsec esec)) := by
  refine ⟨available_dates_sec_length ldirect loutstep nsteps bsec esec hL,
    fun hd i hi =>
      available_dates_sec_backward_get? ldirect loutstep nsteps bsec esec hL hd i hi,
    fun hd i hi =>
      available_dates_sec_forward_get? ldirect loutstep nsteps bsec esec hL
        (by omega) i hi,
    ?_⟩
  intro hd hneg
  rw [List.pairwise_iff_get]
  intro i j hij
  have hlen := available_dates_sec_length ldirect loutstep nsteps bsec esec hL
  have hi : (i : Nat) < nsteps := lt_of_lt_of_eq i.isLt hlen
  have hj : (j : Nat) < nsteps := lt_of_lt_of_eq j.isLt hlen
  have hvi := available_dates_sec_backward_get? ldirect loutstep nsteps bsec esec
    hL hd (i : Nat) hi
  have hvj := available_dates_sec_backward_get? ldirect loutstep nsteps bsec esec
    hL hd (j : Nat) hj
  rw [List.get?_eq_get i.isLt, Fin.eta] at hvi
  rw [List.get?_eq_get j.isLt, Fin.eta] at hvj
  rw [Option.some.inj hvi, Option.some.inj hvj]
  have hijn : (i : Nat) < (j : Nat) := hij
  have hlt : ((nsteps : ℤ) - 1 - ((j : Nat) : ℤ))
      < ((nsteps : ℤ) - 1 - ((i : Nat) : ℤ)) := by omega
  have hmul := mul_lt_mul_of_neg_left hlt hneg
  exact add_lt_add_left hmul esec

/-- C5 witness for the amended statement: backward entries of a concrete
3-step run, and its monotonicity. -/
theorem C5_available_dates_witness :
    (available_dates_sec (-1) (-3600) 3 0 0).length = 3
    ∧ (available_dates_sec (-1) (-3600) 3 0 0).get? 0
        = some (0 + (-3600) * ((3 : ℤ) - 1 - 0))
    ∧ List.Pairwise (fun a b => a < b) (available_dates_sec (-1) (-3600) 3 0 0) :=
  ⟨(C5_available_dates (-1) (-3600) 3 0 0 (by decide)).1,
   (C5_available_dates (-1) (-3600) 3 0 0 (by decide)).2.1 (by decide) 0 (by decide),
   (C5_available_dates (-1) (-3600) 3 0 0 (by decide)).2.2.2 (by decide) (by decide)⟩

/-! ## C1 and C10: the backward accumulation loop -/

/-- Pointwise value of an elementwise-accumulating fold: the loop
`for date in dates: acc += g date` evaluates, at any cell, to the start
value plus the sum of the per-date contributions. -/
theorem foldl_add_apply (l : List ℤ) (g : ℤ → Nat → Nat → Nat → ℚ)
    (f0 : Nat → Nat → Nat → ℚ) (x y z : Nat) :
    (l.foldl (fun acc d => fun x y z => acc x y z + g d x y z) f0) x y z
      = f0 x y z + (l.map (fun d => g d x y z)).sum := by
  induction l generalizing f0 with
  | nil => simp
  | cons d t ih =>
    simp only [List.foldl_cons, List.map_cons, List.sum_cons]
    rw [ih]
    ring

/-- On a duplicate-free list, `l.index(l[i])` recovers `i`. -/
theorem indexOf_get_self (l : List ℤ) (h : l.Nodup) (i : Nat)
    (hi : i < l.length) :
    List.indexOf (l.get ⟨i, hi⟩) l = i := by
  induction l generalizing i with
  | nil => simp at hi
  | cons d t ih =>
    cases i with
    | zero => simp
    | succ j =>
      have hd : d ∉ t := (List.nodup_cons.mp h).1
      have ht : t.Nodup := (List.nodup_cons.mp h).2
      have hj : j < t.length := by simpa using hi
      have hne : d ≠ t.get ⟨j, hj⟩ := by
        intro he
        exact hd (he ▸ t.get_mem j hj)
      have hstep : (d :: t).get ⟨j + 1, hi⟩ = t.get ⟨j, hj⟩ := rfl
      rw [hstep, List.indexOf_cons_ne t hne, ih ht j hj]

/-- The backward accumulation loop evaluates, at each cell, to the sum over
all date positions of the age-summed sub-slice: `c.grid[x][y][z] =
sum over idate of sum over a of sv[x][y][z][idate][p][a]`. -/
theorem C_backward_grid_eq_sum (dates : List ℤ) (hnd : dates.Nodup)
    (sv : Nat → Nat → Nat → Nat → Nat → Nat → ℚ) (na p x y z : Nat) :
    C_backward_grid dates sv na p x y z
      = sumTo (fun i => sumTo (fun a => sv x y z i p a) na) dates.length := by
  rw [C_backward_grid,
    foldl_add_apply dates
      (fun d x y z => sumTo (fun a => sv x y z (List.indexOf d dates) p a) na)
      (fun _ _ _ => 0) x y z]
  rw [zero_add]
  have hmap : dates.map
        (fun d => sumTo (fun a => sv x y z (List.indexOf d dates) p a) na)
      = (List.range dates.length).map
          (fun i => sumTo (fun a => sv x y z i p a) na) := by
    apply List.ext_get?
    intro n
    by_cases hn : n < dates.length
    · rw [List.get?_map, List.get?_eq_get hn, List.get?_map, List.get?_range hn]
      simp only [Option.map_some']
      rw [indexOf_get_self dates hnd n hn]
    · have h1 : dates.length ≤ n := by omega
      have h2 : (List.range dates.length).length ≤ n := by
        rw [List.length_range]; omega
      rw [List.get?_map, List.get?_map, List.get?_eq_none.mpr h1,
        List.get?_eq_none.mpr (by rw [List.length_range]; omega)]
      rfl
  rw [hmap]
  rfl

/-- Reduction of the backward `C.__getitem__` on a well-formed key whose
indices are in range and whose `iout` selects a variable name. -/
theorem C_getitem_bw_ok (iout : ℤ) (dates : List ℤ) (vars : String → Raw6)
    (nx ny nz : Nat) (rts : List ℤ) (sl : List String)
    (Hn : Nat → Nat → Nat → ℚ) (s p : ℤ) (vn : String)
    (hp0 : 0 ≤ p) (hp : p.toNat < rts.length)
    (hs0 : 0 ≤ s) (hs : s.toNat < sl.length)
    (hv : selectVarname iout s = some vn) :
    C_getitem_bw iout dates vars nx ny nz rts sl Hn
        (PyKey.tup [PyAtom.int s, PyAtom.int p])
      = Except.ok (CResult.ofGrid
          ⟨nx, ny, nz, C_backward_grid dates (specvarT (vars vn)) (vars vn).na
            (npIdx (vars vn).np p)⟩
          (rts.get ⟨p.toNat, hp⟩) (sl.get ⟨s.toNat, hs⟩) p s
          (some (get_slabs Hn
            ⟨nx, ny, nz, C_backward_grid dates (specvarT (vars vn)) (vars vn).na
              (npIdx (vars vn).np p)⟩))) := by
  rw [C_getitem_bw]
  rw [show C_check (PyKey.tup [PyAtom.int s, PyAtom.int p]) = Except.ok (s, p)
    from rfl]
  show Except.bind (pyIndex rts p) _ = _
  rw [pyIndex_ok rts p hp0 hp]
  show Except.bind (pyIndex sl s) _ = _
  rw [pyIndex_ok sl s hs0 hs]
  show (match selectVarname iout s with
    | none => Except.error PyErr.unboundLocalError
    | some vn => _) = _
  rw [hv]

/-- C1: for a backward-direction run and a valid `(species, release-point)`
key, `C[s,p].grid` is a `(numxgrid, numygrid, numzgrid)`-shaped grid whose
every cell equals the sum, over all `available_dates` positions, of the
sub-slice of the transposed raw species variable at that date and release point
summed over its trailing (age-class) axis — the zero accumulator of the loop
plus one age-summed slice per date. -/
theorem C1_backward_C_grid (iout : ℤ) (dates : List ℤ) (vars : String → Raw6)
    (nx ny nz : Nat) (rts : List ℤ) (sl : List String)
    (Hn : Nat → Nat → Nat → ℚ) (s p : ℤ) (vn : String)
    (hnd : dates.Nodup) (hp0 : 0 ≤ p) (hp : p.toNat < rts.length)
    (hs0 : 0 ≤ s) (hs : s.toNat < sl.length)
    (hv : selectVarname iout s = some vn) :
    (C_getitem_bw iout dates vars nx ny nz rts sl Hn
        (PyKey.tup [PyAtom.int s, PyAtom.int p])).map
      (fun c => (c.grid.d1, c.grid.d2, c.grid.d3)) = Except.ok (nx, ny, nz)
    ∧ ∀ x y z, (C_getitem_bw iout dates vars nx ny nz rts sl Hn
        (PyKey.tup [PyAtom.int s, PyAtom.int p])).map
      (fun c => c.grid.val x y z)
      = Except.ok (sumTo (fun i =>
          sumTo (fun a => specvarT (vars vn) x y z i (npIdx (vars vn).np p) a)
            (vars vn).na) dates.length) := by
  have hok := C_getitem_bw_ok iout dates vars nx ny nz rts sl Hn s p vn
    hp0 hp hs0 hs hv
  constructor
  · rw [hok]; rfl
  · intro x y z
    rw [hok]
    show Except.ok (C_backward_grid dates (specvarT (vars vn)) (vars vn).na
      (npIdx (vars vn).np p) x y z) = _
    rw [C_backward_grid_eq_sum dates hnd (specvarT (vars vn)) (vars vn).na
      (npIdx (vars vn).np p) x y z]

/-- A concrete raw variable for the witnesses: one species, one release
point, two dates, one age class, a single cell whose value at time `t` is
`t + 1`. -/
def wRaw : Raw6 := ⟨1, 1, 2, 1, 1, 1, fun _ _ t _ _ _ => (t : ℚ) + 1⟩

/-- A concrete variables table for the witnesses. -/
def wVars : String → Raw6 := fun _ => wRaw

/-- A concrete height field for the witnesses. -/
def wHn : Nat → Nat → Nat → ℚ := fun _ _ _ => 1

/-- A concrete `time` variable for the witnesses. -/
def wTime : Nat → ℤ := fun i => i

/-- C1 witness: the accumulated cell value on the concrete backward setup. -/
theorem C1_backward_C_grid_witness :
    (C_getitem_bw 1 [10, 20] wVars 1 1 1 [0] ["X"] wHn
        (PyKey.tup [PyAtom.int 0, PyAtom.int 0])).map
      (fun c => c.grid.val 0 0 0)
      = Except.ok (sumTo (fun i =>
          sumTo (fun a => specvarT (wVars ("spec001_mr")) 0 0 0 i
            (npIdx (wVars ("spec001_mr")).np 0) a)
          (wVars ("spec001_mr")).na) 2) :=
  (C1_backward_C_grid 1 [10, 20] wVars 1 1 1 [0] ["X"] wHn 0 0 ("spec001_mr")
    (by decide) (by decide) (by decide) (by decide) (by decide) (by decide)).2
    0 0 0

/-- C10: on a duplicate-free date list covering the whole time axis
(`len(available_dates) = nt`), the per-date accumulation loop produces
exactly the grid of the vectorized reduction
`specvar[:, :, :, :, pointspec, :].sum(axis=(-2, -1))`. -/
theorem C10_loop_eq_vectorized (dates : List ℤ)
    (sv : Nat → Nat → Nat → Nat → Nat → Nat → ℚ) (nt na p : Nat)
    (hnd : dates.Nodup) (hlen : dates.length = nt) :
    ∀ x y z, C_backward_grid dates sv na p x y z
      = C_backward_grid_vec sv nt na p x y z := by
  intro x y z
  rw [C_backward_grid_eq_sum dates hnd sv na p x y z, hlen]
  rfl

/-- C10 witness: the loop and the vectorized reduction agree on the
concrete two-date setup. -/
theorem C10_loop_eq_vectorized_witness :
    C_backward_grid [10, 20] (specvarT wRaw) 1 0 0 0 0
      = C_backward_grid_vec (specvarT wRaw) 2 1 0 0 0 0 :=
  C10_loop_eq_vectorized [10, 20] (specvarT wRaw) 2 1 0 (by decide) (by decide)
    0 0 0

/-! ## C3 -/

/-- C3: for a forward-direction run and a valid release-point index, the C
accessor delegates to the FD accessor: the grid of `C[s, p]` is exactly the
grid of `FD[(s, grid_dates[p])]`, where `grid_dates` is `available_dates`
and the date is the one aligned by position with the release point (the
error outcomes also coincide). -/
theorem C3_forward_delegates (iout : ℤ) (dates : List ℤ)
    (vars : String → Raw6) (timeVar : Nat → ℤ) (direc : String)
    (Hn : Nat → Nat → Nat → ℚ) (s p : ℤ)
    (hp0 : 0 ≤ p) (hp : p.toNat < dates.length) :
    (C_getitem_fw iout dates vars timeVar direc Hn
        (PyKey.tup [PyAtom.int s, PyAtom.int p])).map (fun c => c.grid)
      = (FD_getitem iout dates vars timeVar direc s
          (dates.get ⟨p.toNat, hp⟩)).map (fun f => f.grid) := by
  rw [C_getitem_fw]
  rw [show C_check (PyKey.tup [PyAtom.int s, PyAtom.int p]) = Except.ok (s, p)
    from rfl]
  simp only [Except.bind]
  rw [pyIndex_ok dates p hp0 hp]
  simp only [Except.bind]
  cases FD_getitem iout dates vars timeVar direc s (dates.get ⟨p.toNat, hp⟩) with
  | error e => rfl
  | ok f => rfl

/-- C3 witness: delegation on the concrete forward setup, where
`grid_dates[1] = 20`. -/
theorem C3_forward_delegates_witness :
    (C_getitem_fw 1 [10, 20] wVars wTime ("forward") wHn
        (PyKey.tup [PyAtom.int 0, PyAtom.int 1])).map (fun c => c.grid)
      = (FD_getitem 1 [10, 20] wVars wTime ("forward") 0 20).map
          (fun f => f.grid) :=
  C3_forward_delegates 1 [10, 20] wVars wTime ("forward") wHn 0 1
    (by decide) (by decide)

/-! ## C4 -/

/-- C4: for a valid `(species, date)` key, the FD lookup yields an FDC whose
grid shape is `(numxgrid, numygrid, numzgrid)` extended by the trailing
`(pointspec, ageclass)` axes — the transposed date slice of the raw
variable — and whose `shape`, `min` and `max` slots equal `grid.shape`,
`grid.min()` and `grid.max()` exactly (the `grid` setter records them). -/
theorem C4_FD_lookup (iout : ℤ) (dates : List ℤ) (vars : String → Raw6)
    (timeVar : Nat → ℤ) (direc : String) (s : ℤ) (date : ℤ) (vn : String)
    (hd : date ∈ dates) (hv : selectVarname iout s = some vn) :
    (FD_getitem iout dates vars timeVar direc s date).map (fun f => f.shape)
      = Except.ok ([(vars vn).nx, (vars vn).ny, (vars vn).nz]
          ++ [(vars vn).np, (vars vn).na])
    ∧ (FD_getitem iout dates vars timeVar direc s date).map (fun f => f.shape)
      = (FD_getitem iout dates vars timeVar direc s date).map
          (fun f => f.grid.shape)
    ∧ (FD_getitem iout dates vars timeVar direc s date).map (fun f => f.maxv)
      = (FD_getitem iout dates vars timeVar direc s date).map
          (fun f => f.grid.maxVal)
    ∧ (FD_getitem iout dates vars timeVar direc s date).map (fun f => f.minv)
      = (FD_getitem iout dates vars timeVar direc s date).map
          (fun f => f.grid.minVal) := by
  rw [FD_getitem, if_pos hd, hv]
  exact ⟨rfl, rfl, rfl, rfl⟩

/-- C4 witness: the FD lookup slots on the concrete setup. -/
theorem C4_FD_lookup_witness :
    (FD_getitem 1 [10, 20] wVars wTime ("forward") 0 10).map (fun f => f.shape)
      = Except.ok ([wRaw.nx, wRaw.ny, wRaw.nz] ++ [wRaw.np, wRaw.na])
    ∧ (FD_getitem 1 [10, 20] wVars wTime ("forward") 0 10).map
        (fun f => f.maxv)
      = (FD_getitem 1 [10, 20] wVars wTime ("forward") 0 10).map
          (fun f => f.grid.maxVal) :=
  ⟨(C4_FD_lookup 1 [10, 20] wVars wTime ("forward") 0 10 ("spec001_mr")
      (by decide) (by decide)).1,
   (C4_FD_lookup 1 [10, 20] wVars wTime ("forward") 0 10 ("spec001_mr")
      (by decide) (by decide)).2.2.1⟩

/-! ## C9 -/

/-- An `iout` outside the handled set assigns no variable name. -/
theorem selectVarname_unhandled (iout k : ℤ) (h1 : iout ≠ 1) (h2 : iout ≠ 2)
    (h3 : iout ≠ 3) (h5 : iout ≠ 5) : selectVarname iout k = none := by
  simp [selectVarname, h1, h2, h3, h5]

/-- C9: for `iout` outside `{1, 2, 3, 5}` the species-name selection leaves
the variable name unset (`none`), and `Header.species` (on at least one
species), `Header.output_unit`, the FD lookup (on a valid date) and the
backward C lookup (on a valid key) all fail with `UnboundLocalError` — an
undefined-name error, not a NotFound-style `KeyError`; for `iout` in
`{1, 3, 5}` the selected template carries the `_mr` suffix, and for
`iout = 2` the `_pptv` suffix. -/
theorem C9_iout_handling (iout : ℤ) :
    ((iout ≠ 1 ∧ iout ≠ 2 ∧ iout ≠ 3 ∧ iout ≠ 5) →
      (∀ k, selectVarname iout k = none)
      ∧ (∀ nspec longName, 0 < nspec →
          species_model iout nspec longName
            = Except.error PyErr.unboundLocalError)
      ∧ (∀ units, output_unit_model iout units
            = Except.error PyErr.unboundLocalError)
      ∧ (∀ dates vars timeVar direc (s date : ℤ), date ∈ dates →
          FD_getitem iout dates vars timeVar direc s date
            = Except.error PyErr.unboundLocalError)
      ∧ (∀ dates vars nx ny nz rts sl Hn (s p : ℤ),
          0 ≤ p → p.toNat < List.length rts →
          0 ≤ s → s.toNat < List.length sl →
          C_getitem_bw iout dates vars nx ny nz rts sl Hn
              (PyKey.tup [PyAtom.int s, PyAtom.int p])
            = Except.error PyErr.unboundLocalError)
      ∧ PyErr.unboundLocalError ≠ PyErr.keyError)
    ∧ ((iout = 1 ∨ iout = 3 ∨ iout = 5) →
        ∀ k, selectVarname iout k = some ("spec" ++ pad3 (k + 1) ++ "_mr"))
    ∧ (iout = 2 →
        ∀ k, selectVarname iout k = some ("spec" ++ pad3 (k + 1) ++ "_pptv")) := by
  refine ⟨?_, ?_, ?_⟩
  · rintro ⟨h1, h2, h3, h5⟩
    have hnone : ∀ k, selectVarname iout k = none := fun k =>
      selectVarname_unhandled iout k h1 h2 h3 h5
    refine ⟨hnone, ?_, ?_, ?_, ?_, by decide⟩
    · intro nspec longName hpos
      obtain ⟨m, rfl⟩ := Nat.exists_eq_succ_of_ne_zero (Nat.pos_iff_ne_zero.mp hpos)
      rw [species_model, List.range_succ_eq_map, species_names,
        hnone (Int.ofNat 0)]
    · intro units
      simp [output_unit_model, h1, h2, h3, h5]
    · intro dates vars timeVar direc s date hdd
      rw [FD_getitem, if_pos hdd, hnone s]
    · intro dates vars nx ny nz rts sl Hn s p hp0 hp hs0 hs
      rw [C_getitem_bw]
      rw [show C_check (PyKey.tup [PyAtom.int s, PyAtom.int p])
        = Except.ok (s, p) from rfl]
      show Except.bind (pyIndex rts p) _ = _
      rw [pyIndex_ok rts p hp0 hp]
      show Except.bind (pyIndex sl s) _ = _
      rw [pyIndex_ok sl s hs0 hs]
      show (match selectVarname iout s with
        | none => Except.error PyErr.unboundLocalError
        | some vn => _) = _
      rw [hnone s]
  · intro h k
    have h2 : ¬ iout = 2 := by rcases h with h | h | h <;> omega
    have h135 : iout = 1 ∨ iout = 3 ∨ iout = 5 := h
    simp [selectVarname, h135, h2]
  · intro h k
    subst h
    simp [selectVarname]

/-- C9 witness: `iout = 4` breaks `Header.species`; `iout = 1` and
`iout = 2` pick the `_mr` and `_pptv` templates. -/
theorem C9_iout_handling_witness :
    species_model 4 1 (fun _ => ("x")) = Except.error PyErr.unboundLocalError
    ∧ selectVarname 1 0 = some ("spec" ++ pad3 (0 + 1) ++ "_mr")
    ∧ selectVarname 2 0 = some ("spec" ++ pad3 (0 + 1) ++ "_pptv") :=
  ⟨((C9_iout_handling 4).1 (by decide)).2.1 1 (fun _ => ("x")) (by decide),
   (C9_iout_handling 1).2.1 (Or.inl rfl) 0,
   (C9_iout_handling 2).2.2 rfl 0⟩

end Reflexible
